import Mathlib

/-!
Shallow embedding of the Sign Pong multiplayer session server
(`src/unnamed/part_001`), which contains two transport variants of the same
game core: a Socket.io server (lines 1-496) and a raw WebSocket server
(lines 497-1007).  JavaScript objects keyed by player/room ids are modelled
as insertion-ordered association lists (JS string-keyed objects preserve
insertion order and have unique keys); `Math.random()`-generated room codes
and `uuidv4()` player ids are injected as event parameters; wall-clock time
is injected as the `elapsedSeconds` parameter of the match-timer tick.
-/

namespace Pong

/-- `alookup l k` models JS property read `l[k]` on an object encoded as an
insertion-ordered association list: the value of the first entry with key `k`,
`none` when absent (JS `undefined`). -/
def alookup {α β : Type} [DecidableEq α] : List (α × β) → α → Option β
  | [], _ => none
  | (k, v) :: t, a => if k = a then some v else alookup t a

/-- `aset l k v` models JS property write `l[k] = v`: overwrite the entry in
place when the key exists, append a new entry otherwise. -/
def aset {α β : Type} [DecidableEq α] : List (α × β) → α → β → List (α × β)
  | [], a, b => [(a, b)]
  | (k, v) :: t, a, b => if k = a then (a, b) :: t else (k, v) :: aset t a b

/-- `aerase l k` models JS `delete l[k]`: remove the first entry with key `k`. -/
def aerase {α β : Type} [DecidableEq α] : List (α × β) → α → List (α × β)
  | [], _ => []
  | (k, v) :: t, a => if k = a then t else (k, v) :: aerase t a

/-- A room member: the per-player record stored in `rooms[roomId].players`
(the transport handle `socketId`/`ws` is dropped; delivery is addressed by
player id in the `Out` events below). -/
structure Player where
  ready : Bool
  isHost : Bool
  name : String
deriving DecidableEq

/-- Authoritative ball state `{x, y, speedX, speedY}`. -/
structure Ball where
  x : Int
  y : Int
  speedX : Int
  speedY : Int
deriving DecidableEq

/-- `rooms[roomId].gameState`. -/
structure GameState where
  ball : Ball
  paddles : List (Nat × Int)
  scores : List (Nat × Int)
deriving DecidableEq

/-- `rooms[roomId].matchState`.  `lastUpdateTime` is not modelled: the tick's
`elapsedSeconds = floor((now - lastUpdateTime)/1000)` is injected as a
parameter of `tick` instead. -/
structure MatchState where
  currentSet : Nat
  timeRemaining : Int
  isRestPeriod : Bool
  restTimeRemaining : Int
  set1Scores : List (Nat × Int)
  set2Scores : List (Nat × Int)
deriving DecidableEq

/-- A room.  `startIds` models the `playerIds` array captured by the
match-timer closure when the game starts (`[]` before the start); `matchTimer`
interval handles are modelled by the server-level `timers` list. -/
structure Room where
  players : List (Nat × Player)
  gameState : GameState
  matchState : Option MatchState
  gameStarted : Bool
  startIds : List Nat
deriving DecidableEq

/-- Whole-server state: the module-level `rooms` and `waitingPlayers` objects,
the per-connection `roomId` closure variables (`conns`, keyed by the
connection's `playerId`), and `timers`, the set of room codes with a live
`setInterval` match timer (at most one per room is modelled:
`rooms[roomId].matchTimer` keeps a single handle). -/
structure ServerState where
  rooms : List (String × Room)
  waitingPlayers : List (Nat × String)
  conns : List (Nat × Option String)
  timers : List String
deriving DecidableEq

/-- The server before any connection: `rooms = {}`, `waitingPlayers = {}`. -/
def initState : ServerState := { rooms := [], waitingPlayers := [], conns := [], timers := [] }

/-- `data.playerName || "Player"`: default on a missing or empty (falsy) name. -/
def nameOr (o : Option String) : String :=
  match o with
  | some n => if n = "" then "Player" else n
  | none => "Player"

/-- Initial `gameState` of a fresh room. -/
def initGameState : GameState :=
  { ball := { x := 400, y := 200, speedX := 0, speedY := 0 }, paddles := [], scores := [] }

/-- The connection's current room per the handler guards `roomId &&
rooms[roomId]`'s first conjunct: the closure variable `roomId`, with the empty
string (falsy in JS) treated as no room. -/
def connRoom (s : ServerState) (pid : Nat) : Option String :=
  match alookup s.conns pid with
  | some (some r) => if r = "" then none else some r
  | _ => none

/-- `String.prototype.toUpperCase`, modelled on the ASCII range (room codes
and their normalization only involve ASCII; non-ASCII code points are left
unchanged). -/
def upChar : Char → Char
  | 'a' => 'A' | 'b' => 'B' | 'c' => 'C' | 'd' => 'D' | 'e' => 'E' | 'f' => 'F'
  | 'g' => 'G' | 'h' => 'H' | 'i' => 'I' | 'j' => 'J' | 'k' => 'K' | 'l' => 'L'
  | 'm' => 'M' | 'n' => 'N' | 'o' => 'O' | 'p' => 'P' | 'q' => 'Q' | 'r' => 'R'
  | 's' => 'S' | 't' => 'T' | 'u' => 'U' | 'v' => 'V' | 'w' => 'W' | 'x' => 'X'
  | 'y' => 'Y' | 'z' => 'Z'
  | c => c

/-- Whitespace for `String.prototype.trim`, modelled on the ASCII whitespace
characters. -/
def isWs (c : Char) : Bool :=
  c = ' ' || c = '\t' || c = '\n' || c = '\x0d' || c = '\x0b' || c = '\x0c'

/-- `String.prototype.trim`: strip leading and trailing whitespace. -/
def trimChars (l : List Char) : List Char :=
  ((l.dropWhile isWs).reverse.dropWhile isWs).reverse

/-- `data.roomId.trim().toUpperCase()` — the join-code normalization. -/
def normCode (c : String) : String :=
  String.mk ((trimChars c.data).map upChar)

/-- The base-36 digit characters produced by `Number.prototype.toString(36)`:
`0`-`9` then `a`-`z`. -/
def base36Char (d : Nat) : Char :=
  if d < 10 then Char.ofNat (48 + d) else Char.ofNat (87 + d)

/-- `Math.random().toString(36)`: `"0"` for the value 0, otherwise `"0."`
followed by the base-36 digits of the fractional value.  `ds` is the digit
list that `toString` prints (a finite list, trailing zeros trimmed, since
JS prints the shortest round-tripping representation). -/
def randomToString36 (ds : List Nat) : String :=
  if ds.isEmpty then "0" else String.mk ('0' :: '.' :: ds.map base36Char)

/-- Room-code generation
`Math.random().toString(36).substring(2, 8).toUpperCase()`. -/
def genRoomCode (ds : List Nat) : String :=
  String.mk ((((randomToString36 ds).data.drop 2).take 6).map upChar)

/-- Digit lists that `Math.random().toString(36)` can yield: base-36 digits
with no trailing zero (JS trims trailing zeros; `[]` stands for the value 0). -/
def validDigits (ds : List Nat) : Bool :=
  ds.all (fun d => decide (d < 36)) && decide (ds.getLast? ≠ some 0)

/-- Outbound (server → client) events, tagged with the recipient player id
(delivery via `io.to(socketId).emit` / `ws.send`). -/
inductive Out where
  | roomCreated (dst : Nat) (roomId : String)
  | playerJoined (dst : Nat) (pid : Nat) (name : String)
  | roomJoined (dst : Nat) (roomId : String) (hostName : String)
  | errorMsg (dst : Nat) (msg : String)
  | waitingForOpponent (dst : Nat)
  | gameFound (dst : Nat) (roomId : String) (isHost : Bool) (opponentName : String)
  | gameStarting (dst : Nat) (gs : GameState) (playerIds : List Nat)
      (playerNames : List (Nat × String)) (yourId : Nat)
  | ballMoving (dst : Nat) (ball : Ball)
  | opponentMove (dst : Nat) (y : Int)
  | ballUpdate (dst : Nat) (ball : Ball)
  | scoreUpdate (dst : Nat) (scores : List (Nat × Int))
  | timerUpdate (dst : Nat) (timeRemaining : Int) (currentSet : Nat)
  | restPeriodStarting (dst : Nat) (ms : MatchState)
  | restPeriodUpdate (dst : Nat) (restTimeRemaining : Int)
  | set2Starting (dst : Nat) (ms : MatchState)
  | matchResults (dst : Nat) (ms : MatchState)
  | opponentDisconnected (dst : Nat)
deriving DecidableEq

/-- Inbound (client → server) events.  `pid` is the sending connection's
`playerId`; `code` on `createRoom`/`findGame` is the freshly generated room
code (the `Math.random()` draw injected as a parameter); payload names are
`Option` where the handler applies a `|| "Player"` default. -/
inductive Ev where
  | createRoom (pid : Nat) (pname : Option String) (code : String)
  | joinRoom (pid : Nat) (code : String) (pname : Option String)
  | findGame (pid : Nat) (pname : Option String) (code : String)
  | playerReady (pid : Nat)
  | paddleMove (pid : Nat) (y : Int)
  | ballUpdate (pid : Nat) (ball : Ball)
  | scoreUpdate (pid : Nat) (scores : List (Nat × Int))
  | playerScored (pid : Nat) (scorer : Nat)
  | disconnect (pid : Nat)
deriving DecidableEq

/-- `create_room` handler (lines 39-68 / 536-566): build a one-player room
with the caller as host, bind the connection's `roomId`, and acknowledge with
`room_created`. -/
def handleCreateRoom (s : ServerState) (pid : Nat) (pname : Option String) (code : String) :
    ServerState × List Out :=
  let room : Room :=
    { players := [(pid, { ready := false, isHost := true, name := nameOr pname })],
      gameState := initGameState, matchState := none, gameStarted := false, startIds := [] }
  ({ s with rooms := aset s.rooms code room, conns := aset s.conns pid (some code) },
   [Out.roomCreated pid code])

/-- The `for (const pid in players) if (players[pid].isHost) ...` loop: the
first member flagged as host, in insertion order. -/
def findHost : List (Nat × Player) → Option (Nat × Player)
  | [] => none
  | (k, v) :: t => if v.isHost then some (k, v) else findHost t

/-- `join_room` handler (lines 71-128 / 568-629): normalize the submitted
code; if the room exists, bind the connection's `roomId` (before the
capacity check), reject with `Room is full` at 2 members, otherwise add the
caller as a non-host member, notify the host with `player_joined` and the
caller with `room_joined`; if the room does not exist, reply `Room not
found`. -/
def handleJoinRoom (s : ServerState) (pid : Nat) (code : String) (pname : Option String) :
    ServerState × List Out :=
  let rc := normCode code
  match alookup s.rooms rc with
  | some room =>
    let s1 := { s with conns := aset s.conns pid (some rc) }
    if 2 ≤ room.players.length then
      (s1, [Out.errorMsg pid "Room is full"])
    else
      let jname := nameOr pname
      let players1 := aset room.players pid { ready := false, isHost := false, name := jname }
      let hostOuts :=
        match findHost players1 with
        | some (hid, _) => [Out.playerJoined hid pid jname]
        | none => []
      let hostName :=
        match findHost players1 with
        | some (_, hp) => hp.name
        | none => "Host"
      ({ s1 with rooms := aset s1.rooms rc ({ room with players := players1 }) },
       hostOuts ++ [Out.roomJoined pid rc hostName])
  | none => (s, [Out.errorMsg pid "Room not found"])

/-- `find_game` handler (lines 131-202 / 631-706): enqueue the caller; if
another distinct player is waiting, build a two-player room (caller as host),
remove both from the queue, bind the caller's `roomId` (the opponent's
connection `roomId` is left untouched by the source), and notify both with
`game_found`; otherwise acknowledge `waiting_for_opponent`. -/
def handleFindGame (s : ServerState) (pid : Nat) (pname : Option String) (code : String) :
    ServerState × List Out :=
  let qname := nameOr pname
  let waiting1 := aset s.waitingPlayers pid qname
  if 2 ≤ waiting1.length then
    match waiting1.find? (fun kv => kv.1 ≠ pid) with
    | some (other, otherName) =>
      let room : Room :=
        { players := [(pid, { ready := false, isHost := true, name := qname }),
                      (other, { ready := false, isHost := false, name := otherName })],
          gameState := initGameState, matchState := none, gameStarted := false, startIds := [] }
      ({ s with rooms := aset s.rooms code room,
                waitingPlayers := aerase (aerase waiting1 pid) other,
                conns := aset s.conns pid (some code) },
       [Out.gameFound pid code true otherName,
        Out.gameFound other code false qname])
    | none => ({ s with waitingPlayers := waiting1 }, [])
  else
    ({ s with waitingPlayers := waiting1 }, [Out.waitingForOpponent pid])

/-- `players[playerId].ready = true`: in-place update of the caller's entry. -/
def setReady (ps : List (Nat × Player)) (pid : Nat) : List (Nat × Player) :=
  ps.map (fun kv => if kv.1 = pid then (kv.1, { kv.2 with ready := true }) else kv)

/-- `player_ready` handler (lines 205-375 / 708-886): mark the caller ready;
when all members are ready and the roster has exactly 2 entries, set
`gameStarted`, initialize paddles/scores, build the `matchState`, start the
match timer, and broadcast `game_starting` to each member.  The 2s/0.5s
`ball_moving` release timeouts are not modelled (no claim concerns them). -/
def handlePlayerReady (s : ServerState) (pid : Nat) : ServerState × List Out :=
  match connRoom s pid with
  | none => (s, [])
  | some r =>
    match alookup s.rooms r with
    | none => (s, [])
    | some room =>
      match alookup room.players pid with
      | none => (s, [])
      | some _ =>
        let players1 := setReady room.players pid
        if players1.all (fun kv => kv.2.ready) && decide (players1.length = 2) then
          let pids := players1.map Prod.fst
          let p0 := pids.getD 0 0
          let p1 := pids.getD 1 0
          let gs1 : GameState :=
            { room.gameState with
              paddles := aset (aset room.gameState.paddles p0 150) p1 150,
              scores := aset (aset room.gameState.scores p0 0) p1 0 }
          let ms : MatchState :=
            { currentSet := 1, timeRemaining := 120, isRestPeriod := false,
              restTimeRemaining := 0,
              set1Scores := [(p0, 0), (p1, 0)], set2Scores := [(p0, 0), (p1, 0)] }
          let room1 : Room :=
            { room with players := players1, gameStarted := true, gameState := gs1,
                        matchState := some ms, startIds := pids }
          let names := players1.map (fun kv => (kv.1, kv.2.name))
          ({ s with rooms := aset s.rooms r room1,
                    timers := if r ∈ s.timers then s.timers else s.timers ++ [r] },
           players1.map (fun kv => Out.gameStarting kv.1 gs1 pids names kv.1))
        else
          ({ s with rooms := aset s.rooms r ({ room with players := players1 }) }, [])

/-- The relay loop `for (const pid in players) if (pid !== playerId) { send;
break }`: the first member other than the sender, in insertion order. -/
def firstOther (ps : List (Nat × Player)) (pid : Nat) : Option Nat :=
  (ps.find? (fun kv => kv.1 ≠ pid)).map Prod.fst

/-- `paddle_move` handler (lines 378-393 / 888-904): when in a started room,
set the sender's paddle y and relay `opponent_move` to the other member. -/
def handlePaddleMove (s : ServerState) (pid : Nat) (y : Int) : ServerState × List Out :=
  match connRoom s pid with
  | none => (s, [])
  | some r =>
    match alookup s.rooms r with
    | none => (s, [])
    | some room =>
      match alookup room.players pid with
      | none => (s, [])
      | some _ =>
        if room.gameStarted then
          let room1 : Room := { room with gameState :=
            { room.gameState with paddles := aset room.gameState.paddles pid y } }
          ({ s with rooms := aset s.rooms r room1 },
           match firstOther room.players pid with
           | some q => [Out.opponentMove q y]
           | none => [])
        else (s, [])

/-- `ball_update` handler (lines 396-413 / 906-924): only when the game is
started and the sender is the host, replace the authoritative ball and relay
`ball_update` to the other member; otherwise do nothing. -/
def handleBallUpdate (s : ServerState) (pid : Nat) (b : Ball) : ServerState × List Out :=
  match connRoom s pid with
  | none => (s, [])
  | some r =>
    match alookup s.rooms r with
    | none => (s, [])
    | some room =>
      match alookup room.players pid with
      | none => (s, [])
      | some pl =>
        if room.gameStarted then
          if pl.isHost then
            let room1 : Room := { room with gameState := { room.gameState with ball := b } }
            ({ s with rooms := aset s.rooms r room1 },
             match firstOther room.players pid with
             | some q => [Out.ballUpdate q b]
             | none => [])
          else (s, [])
        else (s, [])

/-- `for (const pid in data.scores) gameState.scores[pid] = data.scores[pid]`. -/
def mergeScores (base upd : List (Nat × Int)) : List (Nat × Int) :=
  upd.foldl (fun acc kv => aset acc kv.1 kv.2) base

/-- `score_update` handler (lines 416-432 / 926-943): merge the submitted
scores into the live score map and broadcast the full map to every member
(the sender's membership is not checked by the source). -/
def handleScoreUpdate (s : ServerState) (pid : Nat) (scores : List (Nat × Int)) :
    ServerState × List Out :=
  match connRoom s pid with
  | none => (s, [])
  | some r =>
    match alookup s.rooms r with
    | none => (s, [])
    | some room =>
      let newScores := mergeScores room.gameState.scores scores
      let room1 : Room := { room with gameState := { room.gameState with scores := newScores } }
      ({ s with rooms := aset s.rooms r room1 },
       room.players.map (fun kv => Out.scoreUpdate kv.1 newScores))

/-- `player_scored` handler (lines 435-456 / 945-967): if the claimed scorer
is a member, increment their live score (`(scores[p] || 0) + 1`) and broadcast
the full map to every member. -/
def handlePlayerScored (s : ServerState) (pid : Nat) (scorer : Nat) :
    ServerState × List Out :=
  match connRoom s pid with
  | none => (s, [])
  | some r =>
    match alookup s.rooms r with
    | none => (s, [])
    | some room =>
      if scorer ∈ room.players.map Prod.fst then
        let newScores :=
          aset room.gameState.scores scorer ((alookup room.gameState.scores scorer).getD 0 + 1)
        let room1 : Room := { room with gameState := { room.gameState with scores := newScores } }
        ({ s with rooms := aset s.rooms r room1 },
         room.players.map (fun kv => Out.scoreUpdate kv.1 newScores))
      else (s, [])

/-- Socket.io `disconnect` handler (lines 459-486): drop the caller from the
queue; if bound to a live room, send `opponent_disconnected` to every other
member, remove the caller from the roster, and when the roster empties,
`clearInterval` the match timer and delete the room. -/
def handleDisconnectSio (s : ServerState) (pid : Nat) : ServerState × List Out :=
  let waiting1 := aerase s.waitingPlayers pid
  match connRoom s pid with
  | none => ({ s with waitingPlayers := waiting1 }, [])
  | some r =>
    match alookup s.rooms r with
    | none => ({ s with waitingPlayers := waiting1 }, [])
    | some room =>
      let outs := (room.players.filter (fun kv => kv.1 ≠ pid)).map
        (fun kv => Out.opponentDisconnected kv.1)
      let players1 := aerase room.players pid
      if players1.isEmpty then
        ({ s with waitingPlayers := waiting1, rooms := aerase s.rooms r,
                  timers := s.timers.filter (fun t => t ≠ r) }, outs)
      else
        ({ s with waitingPlayers := waiting1,
                  rooms := aset s.rooms r ({ room with players := players1 }) }, outs)

/-- WebSocket `close` handler (lines 975-1000): identical to the Socket.io
cleanup except that it deletes an emptied room WITHOUT clearing its match
timer. -/
def handleDisconnectWs (s : ServerState) (pid : Nat) : ServerState × List Out :=
  let waiting1 := aerase s.waitingPlayers pid
  match connRoom s pid with
  | none => ({ s with waitingPlayers := waiting1 }, [])
  | some r =>
    match alookup s.rooms r with
    | none => ({ s with waitingPlayers := waiting1 }, [])
    | some room =>
      let outs := (room.players.filter (fun kv => kv.1 ≠ pid)).map
        (fun kv => Out.opponentDisconnected kv.1)
      let players1 := aerase room.players pid
      if players1.isEmpty then
        ({ s with waitingPlayers := waiting1, rooms := aerase s.rooms r }, outs)
      else
        ({ s with waitingPlayers := waiting1,
                  rooms := aset s.rooms r ({ room with players := players1 }) }, outs)

/-- One inbound event of the Socket.io variant (`io.on('connection')`
handlers, lines 28-487). -/
def stepSio (s : ServerState) : Ev → ServerState × List Out
  | .createRoom pid n c => handleCreateRoom s pid n c
  | .joinRoom pid c n => handleJoinRoom s pid c n
  | .findGame pid n c => handleFindGame s pid n c
  | .playerReady pid => handlePlayerReady s pid
  | .paddleMove pid y => handlePaddleMove s pid y
  | .ballUpdate pid b => handleBallUpdate s pid b
  | .scoreUpdate pid sc => handleScoreUpdate s pid sc
  | .playerScored pid sc => handlePlayerScored s pid sc
  | .disconnect pid => handleDisconnectSio s pid

/-- One inbound event of the WebSocket variant (`wss.on('connection')`
message/close handlers, lines 519-1001); the per-event bodies are
line-for-line the Socket.io ones modulo `ws.send` framing. -/
def stepWs (s : ServerState) : Ev → ServerState × List Out
  | .createRoom pid n c => handleCreateRoom s pid n c
  | .joinRoom pid c n => handleJoinRoom s pid c n
  | .findGame pid n c => handleFindGame s pid n c
  | .playerReady pid => handlePlayerReady s pid
  | .paddleMove pid y => handlePaddleMove s pid y
  | .ballUpdate pid b => handleBallUpdate s pid b
  | .scoreUpdate pid sc => handleScoreUpdate s pid sc
  | .playerScored pid sc => handlePlayerScored s pid sc
  | .disconnect pid => handleDisconnectWs s pid

/-- `set1Scores[playerIds[0]] = gameState.scores[playerIds[0]]; ...` — the
end-of-set score snapshot over the closure-captured player ids. -/
def snapScores (target scores : List (Nat × Int)) (p0 p1 : Nat) : List (Nat × Int) :=
  aset (aset target p0 ((alookup scores p0).getD 0)) p1 ((alookup scores p1).getD 0)

/-- One firing of the per-room match-timer interval callback (lines 241-323 /
744-831; the bodies of the two variants are identical modulo send framing).
`el` is the computed `elapsedSeconds`.  Returns `none` when the callback
throws: on a deleted room the guard itself evaluates
`clearInterval(rooms[roomId].matchTimer)` with `rooms[roomId]` undefined, a
TypeError (similarly `matchState.lastUpdateTime` on a room without
`matchState`). -/
def tick (s : ServerState) (r : String) (el : Int) : Option (ServerState × List Out) :=
  match alookup s.rooms r with
  | none => none
  | some room =>
    match room.matchState with
    | none => none
    | some ms =>
      let p0 := room.startIds.getD 0 0
      let p1 := room.startIds.getD 1 0
      if ms.isRestPeriod then
        let rest1 := ms.restTimeRemaining - el
        if rest1 ≤ 0 then
          let ms1 := { ms with restTimeRemaining := rest1, isRestPeriod := false,
                               currentSet := 2, timeRemaining := 120 }
          let gs1 : GameState := { room.gameState with
            scores := aset (aset room.gameState.scores p0 0) p1 0 }
          let room1 : Room := { room with matchState := some ms1, gameState := gs1 }
          some ({ s with rooms := aset s.rooms r room1 },
                room.players.map (fun kv => Out.set2Starting kv.1 ms1))
        else
          let ms1 := { ms with restTimeRemaining := rest1 }
          some ({ s with rooms := aset s.rooms r ({ room with matchState := some ms1 }) },
                room.players.map (fun kv => Out.restPeriodUpdate kv.1 rest1))
      else
        let t1 := ms.timeRemaining - el
        if t1 ≤ 0 then
          if ms.currentSet = 1 then
            let ms1 := { ms with timeRemaining := t1,
                                 set1Scores := snapScores ms.set1Scores room.gameState.scores p0 p1,
                                 isRestPeriod := true, restTimeRemaining := 30 }
            some ({ s with rooms := aset s.rooms r ({ room with matchState := some ms1 }) },
                  room.players.map (fun kv => Out.restPeriodStarting kv.1 ms1))
          else
            let ms1 := { ms with timeRemaining := t1,
                                 set2Scores := snapScores ms.set2Scores room.gameState.scores p0 p1 }
            some ({ s with rooms := aset s.rooms r ({ room with matchState := some ms1 }),
                           timers := s.timers.filter (fun t => t ≠ r) },
                  room.players.map (fun kv => Out.matchResults kv.1 ms1))
        else
          let ms1 := { ms with timeRemaining := t1 }
          some ({ s with rooms := aset s.rooms r ({ room with matchState := some ms1 }) },
                room.players.map (fun kv => Out.timerUpdate kv.1 t1 ms.currentSet))

/-- Fold a list of inbound events through the Socket.io variant, discarding
outputs. -/
def runSio (s : ServerState) : List Ev → ServerState
  | [] => s
  | e :: t => runSio (stepSio s e).1 t

/-- Fold a list of inbound events through the WebSocket variant, discarding
outputs. -/
def runWs (s : ServerState) : List Ev → ServerState
  | [] => s
  | e :: t => runWs (stepWs s e).1 t

/-- Raw WebSocket messages for the payload-validation claims: the required
field is `Option` so a missing field can be represented. -/
inductive RawMsg where
  | joinRoom (pid : Nat) (roomId : Option String) (pname : Option String)
  | scoreUpdate (pid : Nat) (scores : Option (List (Nat × Int)))
  | playerScored (pid : Nat) (scorer : Option Nat)
deriving DecidableEq

/-- The WebSocket `ws.on('message')` dispatch (lines 531-972) for the three
handlers with a required payload field, including the surrounding
`try/catch`: `join_room` without `roomId` throws a TypeError at
`data.roomId.trim()`, which the catch block (lines 969-971) only logs —
nothing is sent back; `score_update` without `scores` and `player_scored`
without `scoringPlayer` fail their truthiness guards and fall through
silently. -/
def handleMsgWs (s : ServerState) : RawMsg → ServerState × List Out
  | .joinRoom pid ro pname =>
    match ro with
    | none => (s, [])
    | some code => handleJoinRoom s pid code pname
  | .scoreUpdate pid sc =>
    match sc with
    | none => (s, [])
    | some scores => handleScoreUpdate s pid scores
  | .playerScored pid sp =>
    match sp with
    | none => (s, [])
    | some scorer => handlePlayerScored s pid scorer

/-- Invariant: every room's roster has at most 2 entries. -/
def roomsBounded (s : ServerState) : Bool :=
  s.rooms.all (fun kv => decide (kv.2.players.length ≤ 2))

/-- `gameStarted` of the room stored at code `r` (`false` when absent). -/
def startedAt (s : ServerState) (r : String) : Bool :=
  match alookup s.rooms r with
  | some room => room.gameStarted
  | none => false

/-- Room keys are duplicate-free — automatic for a JS object, an invariant of
the association-list encoding. -/
def wfRooms (s : ServerState) : Bool :=
  decide (s.rooms.map Prod.fst).Nodup

/-- The live score map of the room at `r` (`[]` when the room is absent). -/
def scoresAt (s : ServerState) (r : String) : List (Nat × Int) :=
  match alookup s.rooms r with
  | some room => room.gameState.scores
  | none => []

/-- Freshness of the injected `Math.random()` room code: a `create_room` or
`find_game` draw does not collide with an existing room code (the spec calls
codes collision-probabilistic; a collision would overwrite, i.e. destroy and
recreate, the room at that code). -/
def evFresh (s : ServerState) : Ev → Prop
  | .createRoom _ _ c => alookup s.rooms c = none
  | .findGame _ _ c => alookup s.rooms c = none
  | _ => True

/-- Match state of the demo room: set 1, one second left. -/
def demoMs : MatchState :=
  { currentSet := 1, timeRemaining := 1, isRestPeriod := false, restTimeRemaining := 0,
    set1Scores := [(1, 0), (2, 0)], set2Scores := [(1, 0), (2, 0)] }

/-- A started two-player demo room: host `1` ("Alice"), guest `2` ("Bob"),
set 1 with one second left and live scores 3:5. -/
def demoRoom : Room :=
  { players := [(1, { ready := true, isHost := true, name := "Alice" }),
                (2, { ready := true, isHost := false, name := "Bob" })],
    gameState := { ball := { x := 400, y := 200, speedX := 10, speedY := 10 },
                   paddles := [(1, 150), (2, 150)], scores := [(1, 3), (2, 5)] },
    matchState := some demoMs,
    gameStarted := true, startIds := [1, 2] }

/-- A server holding `demoRoom` at code `R1`; connection `3` is bound to `R1`
without being a member (the state a rejected-as-full joiner is left in). -/
def demoState : ServerState :=
  { rooms := [("R1", demoRoom)], waitingPlayers := [],
    conns := [(1, some "R1"), (2, some "R1"), (3, some "R1")], timers := ["R1"] }

/-- A two-player lobby room: host ready, guest not yet ready. -/
def lobbyRoom : Room :=
  { players := [(1, { ready := true, isHost := true, name := "Alice" }),
                (2, { ready := false, isHost := false, name := "Bob" })],
    gameState := initGameState, matchState := none, gameStarted := false, startIds := [] }

/-- A server holding `lobbyRoom` at code `R1`, both connections bound. -/
def lobbyState : ServerState :=
  { rooms := [("R1", lobbyRoom)], waitingPlayers := [],
    conns := [(1, some "R1"), (2, some "R1")], timers := [] }

/-- Create a room, fill it, start the game, then let both players
disconnect, emptying and destroying the room. -/
def emptyRoomTrace : List Ev :=
  [.createRoom 1 (some "Alice") "ROOM41", .joinRoom 2 "ROOM41" (some "Bob"),
   .playerReady 1, .playerReady 2, .disconnect 1, .disconnect 2]

theorem alookup_aset {α β : Type} [DecidableEq α] (l : List (α × β)) (k : α) (v : β) (a : α) :
    alookup (aset l k v) a = if k = a then some v else alookup l a := by
  induction l with
  | nil => by_cases h : k = a <;> simp [aset, alookup, h]
  | cons hd t ih =>
    obtain ⟨k0, v0⟩ := hd
    by_cases hk : k0 = k
    · subst hk
      by_cases h : k0 = a <;> simp [aset, alookup, h]
    · simp only [aset, if_neg hk]
      by_cases h0 : k0 = a
      · subst h0
        have hka : ¬ k = k0 := fun he => hk he.symm
        simp [alookup, hka]
      · simp [alookup, h0, ih]

theorem alookup_aerase_ne {α β : Type} [DecidableEq α] (l : List (α × β)) (k a : α)
    (h : a ≠ k) : alookup (aerase l k) a = alookup l a := by
  induction l with
  | nil => simp [aerase]
  | cons hd t ih =>
    obtain ⟨k0, v0⟩ := hd
    by_cases hk : k0 = k
    · subst hk
      have hna : ¬ k0 = a := fun he => h (he.symm)
      simp [aerase, alookup, hna]
    · by_cases h0 : k0 = a <;> simp [aerase, alookup, hk, h0, ih, h]

theorem mem_aset {α β : Type} [DecidableEq α] {l : List (α × β)} {k : α} {v : β}
    {x : α × β} (h : x ∈ aset l k v) : x = (k, v) ∨ x ∈ l := by
  induction l with
  | nil => simpa [aset] using h
  | cons hd t ih =>
    obtain ⟨k0, v0⟩ := hd
    by_cases hk : k0 = k
    · subst hk
      rcases (by simpa [aset] using h : x = (k0, v) ∨ x ∈ t) with h1 | h1
      · exact Or.inl (by simpa using h1)
      · exact Or.inr (List.mem_cons_of_mem _ h1)
    · rcases (by simpa [aset, hk] using h : x = (k0, v0) ∨ x ∈ aset t k v) with h1 | h1
      · exact Or.inr (by simp [h1])
      · rcases ih h1 with h2 | h2
        · exact Or.inl h2
        · exact Or.inr (List.mem_cons_of_mem _ h2)

theorem aerase_sublist {α β : Type} [DecidableEq α] (l : List (α × β)) (k : α) :
    List.Sublist (aerase l k) l := by
  induction l with
  | nil => simp [aerase]
  | cons hd t ih =>
    obtain ⟨k0, v0⟩ := hd
    by_cases hk : k0 = k
    · simp only [aerase, if_pos hk]
      exact List.sublist_cons_self (k0, v0) t
    · simp only [aerase, if_neg hk]
      exact List.Sublist.cons₂ (k0, v0) ih

theorem all_aset {α β : Type} [DecidableEq α] {p : α × β → Bool} {l : List (α × β)}
    {k : α} {v : β} (hl : l.all p = true) (hv : p (k, v) = true) :
    (aset l k v).all p = true := by
  rw [List.all_eq_true] at hl ⊢
  intro x hx
  rcases mem_aset hx with h | h
  · simpa [h] using hv
  · exact hl x h

theorem all_aerase {α β : Type} [DecidableEq α] {p : α × β → Bool} {l : List (α × β)}
    {k : α} (hl : l.all p = true) : (aerase l k).all p = true := by
  rw [List.all_eq_true] at hl ⊢
  intro x hx
  exact hl x ((aerase_sublist l k).mem hx)

theorem all_alookup {α β : Type} [DecidableEq α] {p : α × β → Bool} {l : List (α × β)}
    {k : α} {v : β} (hl : l.all p = true) (h : alookup l k = some v) : p (k, v) = true := by
  induction l with
  | nil => simp [alookup] at h
  | cons hd t ih =>
    obtain ⟨k0, v0⟩ := hd
    simp only [List.all_cons, Bool.and_eq_true] at hl
    by_cases h0 : k0 = k
    · subst h0
      simp [alookup] at h
      simpa [← h] using hl.1
    · exact ih hl.2 (by simpa [alookup, h0] using h)

theorem length_aset_le {α β : Type} [DecidableEq α] (l : List (α × β)) (k : α) (v : β) :
    (aset l k v).length ≤ l.length + 1 := by
  induction l with
  | nil => simp [aset]
  | cons hd t ih =>
    obtain ⟨k0, v0⟩ := hd
    by_cases hk : k0 = k
    · simp [aset, hk]
    · simp only [aset, if_neg hk, List.length_cons]
      omega

theorem length_aerase_le {α β : Type} [DecidableEq α] (l : List (α × β)) (k : α) :
    (aerase l k).length ≤ l.length :=
  (aerase_sublist l k).length_le

theorem aerase_of_alookup_none {α β : Type} [DecidableEq α] {l : List (α × β)} {k : α}
    (h : alookup l k = none) : aerase l k = l := by
  induction l with
  | nil => simp [aerase]
  | cons hd t ih =>
    obtain ⟨k0, v0⟩ := hd
    by_cases h0 : k0 = k
    · simp [alookup, h0] at h
    · simp only [alookup, h0, if_false] at h
      simp [aerase, h0, ih h]

theorem alookup_none_not_mem {α β : Type} [DecidableEq α] {l : List (α × β)} {k : α}
    (h : alookup l k = none) : ∀ x ∈ l, x.1 ≠ k := by
  induction l with
  | nil => simp
  | cons hd t ih =>
    obtain ⟨k0, v0⟩ := hd
    by_cases h0 : k0 = k
    · simp [alookup, h0] at h
    · simp only [alookup, h0, if_false] at h
      intro x hx
      rcases List.mem_cons.mp hx with h1 | h1
      · simp [h1, h0]
      · exact ih h x h1

theorem filter_eq_self_of_alookup_none {α β : Type} [DecidableEq α] {l : List (α × β)}
    {k : α} (h : alookup l k = none) : l.filter (fun kv => kv.1 ≠ k) = l := by
  rw [List.filter_eq_self]
  intro x hx
  simpa using alookup_none_not_mem h x hx

theorem roomsBounded_handleCreateRoom {s : ServerState} (pid : Nat) (n : Option String)
    (c : String) (h : roomsBounded s = true) :
    roomsBounded (handleCreateRoom s pid n c).1 = true := by
  simp only [handleCreateRoom, roomsBounded] at h ⊢
  exact all_aset h (by simp)

theorem roomsBounded_handleJoinRoom {s : ServerState} (pid : Nat) (c : String)
    (n : Option String) (h : roomsBounded s = true) :
    roomsBounded (handleJoinRoom s pid c n).1 = true := by
  simp only [handleJoinRoom, roomsBounded] at h ⊢
  split
  · rename_i room heq
    split
    · exact h
    · rename_i hlen
      apply all_aset h
      have := length_aset_le room.players pid
        { ready := false, isHost := false, name := nameOr n }
      simp only [decide_eq_true_eq]
      omega
  · exact h

theorem roomsBounded_handleFindGame {s : ServerState} (pid : Nat) (n : Option String)
    (c : String) (h : roomsBounded s = true) :
    roomsBounded (handleFindGame s pid n c).1 = true := by
  simp only [handleFindGame, roomsBounded] at h ⊢
  split
  · split
    · apply all_aset h
      simp
    · exact h
  · exact h

theorem roomsBounded_handlePlayerReady {s : ServerState} (pid : Nat)
    (h : roomsBounded s = true) : roomsBounded (handlePlayerReady s pid).1 = true := by
  simp only [handlePlayerReady, roomsBounded] at h ⊢
  split
  · exact h
  · split
    · exact h
    · rename_i room heq
      split
      · exact h
      · split
        · rename_i hcond
          apply all_aset h
          simp only [Bool.and_eq_true, decide_eq_true_eq] at hcond
          simp [hcond.2]
        · apply all_aset h
          have h2 := all_alookup h heq
          simp only [decide_eq_true_eq] at h2 ⊢
          simpa [setReady] using h2

theorem roomsBounded_handlePaddleMove {s : ServerState} (pid : Nat) (y : Int)
    (h : roomsBounded s = true) : roomsBounded (handlePaddleMove s pid y).1 = true := by
  simp only [handlePaddleMove, roomsBounded] at h ⊢
  split
  · exact h
  · split
    · exact h
    · rename_i room heq
      split
      · exact h
      · split
        · exact all_aset h (by simpa using all_alookup h heq)
        · exact h

theorem roomsBounded_handleBallUpdate {s : ServerState} (pid : Nat) (b : Ball)
    (h : roomsBounded s = true) : roomsBounded (handleBallUpdate s pid b).1 = true := by
  simp only [handleBallUpdate, roomsBounded] at h ⊢
  split
  · exact h
  · split
    · exact h
    · rename_i room heq
      split
      · exact h
      · split
        · split
          · exact all_aset h (by simpa using all_alookup h heq)
          · exact h
        · exact h

theorem roomsBounded_handleScoreUpdate {s : ServerState} (pid : Nat)
    (sc : List (Nat × Int)) (h : roomsBounded s = true) :
    roomsBounded (handleScoreUpdate s pid sc).1 = true := by
  simp only [handleScoreUpdate, roomsBounded] at h ⊢
  split
  · exact h
  · split
    · exact h
    · rename_i room heq
      exact all_aset h (by simpa using all_alookup h heq)

theorem roomsBounded_handlePlayerScored {s : ServerState} (pid scorer : Nat)
    (h : roomsBounded s = true) : roomsBounded (handlePlayerScored s pid scorer).1 = true := by
  simp only [handlePlayerScored, roomsBounded] at h ⊢
  split
  · exact h
  · split
    · exact h
    · rename_i room heq
      split
      · exact all_aset h (by simpa using all_alookup h heq)
      · exact h

theorem roomsBounded_handleDisconnectSio {s : ServerState} (pid : Nat)
    (h : roomsBounded s = true) : roomsBounded (handleDisconnectSio s pid).1 = true := by
  simp only [handleDisconnectSio, roomsBounded] at h ⊢
  split
  · exact h
  · split
    · exact h
    · rename_i room heq
      split
      · exact all_aerase h
      · apply all_aset h
        have h2 := all_alookup h heq
        have h3 := length_aerase_le room.players pid
        simp only [decide_eq_true_eq] at h2 ⊢
        omega

theorem roomsBounded_handleDisconnectWs {s : ServerState} (pid : Nat)
    (h : roomsBounded s = true) : roomsBounded (handleDisconnectWs s pid).1 = true := by
  simp only [handleDisconnectWs, roomsBounded] at h ⊢
  split
  · exact h
  · split
    · exact h
    · rename_i room heq
      split
      · exact all_aerase h
      · apply all_aset h
        have h2 := all_alookup h heq
        have h3 := length_aerase_le room.players pid
        simp only [decide_eq_true_eq] at h2 ⊢
        omega

theorem roomsBounded_tick {s : ServerState} {r : String} {el : Int}
    {out : ServerState × List Out} (hout : tick s r el = some out)
    (h : roomsBounded s = true) : roomsBounded out.1 = true := by
  simp only [tick] at hout
  split at hout
  · exact absurd hout (by simp)
  · rename_i room heq
    split at hout
    · exact absurd hout (by simp)
    · split at hout
      · split at hout
        · cases hout
          simp only [roomsBounded] at h ⊢
          exact all_aset h (by simpa using all_alookup h heq)
        · cases hout
          simp only [roomsBounded] at h ⊢
          exact all_aset h (by simpa using all_alookup h heq)
      · split at hout
        · split at hout
          · cases hout
            simp only [roomsBounded] at h ⊢
            exact all_aset h (by simpa using all_alookup h heq)
          · cases hout
            simp only [roomsBounded] at h ⊢
            exact all_aset h (by simpa using all_alookup h heq)
        · cases hout
          simp only [roomsBounded] at h ⊢
          exact all_aset h (by simpa using all_alookup h heq)

theorem roomsBounded_stepSio (s : ServerState) (e : Ev) (h : roomsBounded s = true) :
    roomsBounded (stepSio s e).1 = true := by
  cases e with
  | createRoom pid n c => exact roomsBounded_handleCreateRoom pid n c h
  | joinRoom pid c n => exact roomsBounded_handleJoinRoom pid c n h
  | findGame pid n c => exact roomsBounded_handleFindGame pid n c h
  | playerReady pid => exact roomsBounded_handlePlayerReady pid h
  | paddleMove pid y => exact roomsBounded_handlePaddleMove pid y h
  | ballUpdate pid b => exact roomsBounded_handleBallUpdate pid b h
  | scoreUpdate pid sc => exact roomsBounded_handleScoreUpdate pid sc h
  | playerScored pid sc => exact roomsBounded_handlePlayerScored pid sc h
  | disconnect pid => exact roomsBounded_handleDisconnectSio pid h

theorem roomsBounded_stepWs (s : ServerState) (e : Ev) (h : roomsBounded s = true) :
    roomsBounded (stepWs s e).1 = true := by
  cases e with
  | createRoom pid n c => exact roomsBounded_handleCreateRoom pid n c h
  | joinRoom pid c n => exact roomsBounded_handleJoinRoom pid c n h
  | findGame pid n c => exact roomsBounded_handleFindGame pid n c h
  | playerReady pid => exact roomsBounded_handlePlayerReady pid h
  | paddleMove pid y => exact roomsBounded_handlePaddleMove pid y h
  | ballUpdate pid b => exact roomsBounded_handleBallUpdate pid b h
  | scoreUpdate pid sc => exact roomsBounded_handleScoreUpdate pid sc h
  | playerScored pid sc => exact roomsBounded_handlePlayerScored pid sc h
  | disconnect pid => exact roomsBounded_handleDisconnectWs pid h

theorem handleJoinRoom_full {s : ServerState} {pid : Nat} {code : String} {n : Option String}
    {room : Room} (hr : alookup s.rooms (normCode code) = some room)
    (hfull : 2 ≤ room.players.length) :
    handleJoinRoom s pid code n =
      ({ s with conns := aset s.conns pid (some (normCode code)) },
       [Out.errorMsg pid "Room is full"]) := by
  simp only [handleJoinRoom, hr]
  rw [if_pos hfull]

theorem handleJoinRoom_notFound {s : ServerState} {pid : Nat} {code : String}
    {n : Option String} (hr : alookup s.rooms (normCode code) = none) :
    handleJoinRoom s pid code n = (s, [Out.errorMsg pid "Room not found"]) := by
  simp only [handleJoinRoom, hr]

theorem handleFindGame_roomSize {s : ServerState} {pid : Nat} {n : Option String}
    {c : String} {room' : Room} (hfresh : alookup s.rooms c = none)
    (hr : alookup (handleFindGame s pid n c).1.rooms c = some room') :
    room'.players.length = 2 := by
  simp only [handleFindGame] at hr
  split at hr
  · split at hr
    · rw [alookup_aset] at hr
      simp only [if_pos rfl, if_true, Option.some.injEq] at hr
      simp [hr.symm]
    · simp [hfresh] at hr
  · simp [hfresh] at hr

/-- C1: every room's roster holds at most 2 entries at every observable
instant — it holds initially and is preserved by every inbound event of both
variants and by every match-timer tick; `join_room` on a full room reports
`Room is full` to the joiner only and leaves the rooms map unchanged, on an
unknown code it reports `Room not found` and leaves the whole state
unchanged; a quick-match pairing creates its room with exactly 2 members. -/
theorem room_capacity_invariant :
    roomsBounded initState = true
    ∧ (∀ s e, roomsBounded s = true → roomsBounded (stepSio s e).1 = true)
    ∧ (∀ s e, roomsBounded s = true → roomsBounded (stepWs s e).1 = true)
    ∧ (∀ s r el out, tick s r el = some out → roomsBounded s = true →
        roomsBounded out.1 = true)
    ∧ (∀ s pid code n room, alookup s.rooms (normCode code) = some room →
        2 ≤ room.players.length →
        (stepSio s (.joinRoom pid code n)).1.rooms = s.rooms
        ∧ (stepSio s (.joinRoom pid code n)).2 = [Out.errorMsg pid "Room is full"])
    ∧ (∀ s pid code n, alookup s.rooms (normCode code) = none →
        stepSio s (.joinRoom pid code n) = (s, [Out.errorMsg pid "Room not found"]))
    ∧ (∀ s pid n c room', alookup s.rooms c = none →
        alookup (stepSio s (.findGame pid n c)).1.rooms c = some room' →
        room'.players.length = 2) := by
  refine ⟨by decide, roomsBounded_stepSio, roomsBounded_stepWs,
    fun s r el out hout h => roomsBounded_tick hout h, ?_, ?_, ?_⟩
  · intro s pid code n room hr hfull
    constructor
    · show (handleJoinRoom s pid code n).1.rooms = s.rooms
      rw [handleJoinRoom_full hr hfull]
    · show (handleJoinRoom s pid code n).2 = _
      rw [handleJoinRoom_full hr hfull]
  · intro s pid code n hr
    exact handleJoinRoom_notFound hr
  · intro s pid n c room' hfresh hr
    exact handleFindGame_roomSize hfresh hr

/-- Witness for `room_capacity_invariant` at the concrete `demoState`: a
step preserves the bound, a third join is rejected as full, and an unknown
code is rejected as not found. -/
theorem room_capacity_invariant_witness :
    roomsBounded (stepSio demoState (.playerReady 1)).1 = true
    ∧ (stepSio demoState (.joinRoom 3 "R1" (some "Carol"))).2 = [Out.errorMsg 3 "Room is full"]
    ∧ stepSio demoState (.joinRoom 3 "ZZZZZZ" none)
        = (demoState, [Out.errorMsg 3 "Room not found"]) :=
  ⟨room_capacity_invariant.2.1 demoState (.playerReady 1) (by decide),
   (room_capacity_invariant.2.2.2.2.1 demoState 3 "R1" (some "Carol") demoRoom
      (by decide) (by decide)).2,
   room_capacity_invariant.2.2.2.2.2.1 demoState 3 "ZZZZZZ" none (by decide)⟩

theorem alookup_eq_none_of_not_mem_keys {α β : Type} [DecidableEq α] {l : List (α × β)}
    {k : α} (h : k ∉ l.map Prod.fst) : alookup l k = none := by
  induction l with
  | nil => simp [alookup]
  | cons hd t ih =>
    obtain ⟨k0, v0⟩ := hd
    simp only [List.map_cons, List.mem_cons, not_or] at h
    have hk : ¬ k0 = k := fun he => h.1 he.symm
    simp [alookup, hk, ih h.2]

theorem alookup_aerase_self {α β : Type} [DecidableEq α] {l : List (α × β)} {k : α}
    (h : (l.map Prod.fst).Nodup) : alookup (aerase l k) k = none := by
  induction l with
  | nil => simp [aerase, alookup]
  | cons hd t ih =>
    obtain ⟨k0, v0⟩ := hd
    simp only [List.map_cons, List.nodup_cons] at h
    by_cases hk : k0 = k
    · subst hk
      simp only [aerase, if_pos rfl]
      exact alookup_eq_none_of_not_mem_keys h.1
    · simp [aerase, alookup, hk, ih h.2]

theorem mem_keys_aset {α β : Type} [DecidableEq α] {l : List (α × β)} {k a : α} {v : β}
    (h : a ∈ (aset l k v).map Prod.fst) : a = k ∨ a ∈ l.map Prod.fst := by
  simp only [List.mem_map] at h
  obtain ⟨x, hx, hax⟩ := h
  rcases mem_aset hx with h1 | h1
  · exact Or.inl (by simp [h1] at hax; simp [← hax, h1])
  · exact Or.inr (by exact List.mem_map.mpr ⟨x, h1, hax⟩)

theorem nodup_keys_aset {α β : Type} [DecidableEq α] {l : List (α × β)} {k : α} {v : β}
    (h : (l.map Prod.fst).Nodup) : ((aset l k v).map Prod.fst).Nodup := by
  induction l with
  | nil => simp [aset]
  | cons hd t ih =>
    obtain ⟨k0, v0⟩ := hd
    simp only [List.map_cons, List.nodup_cons] at h
    by_cases hk : k0 = k
    · subst hk
      have hset : aset ((k0, v0) :: t) k0 v = (k0, v) :: t := by simp [aset]
      rw [hset]
      simp only [List.map_cons, List.nodup_cons]
      exact ⟨h.1, h.2⟩
    · simp only [aset, if_neg hk, List.map_cons, List.nodup_cons]
      refine ⟨fun hmem => ?_, ih h.2⟩
      rcases mem_keys_aset hmem with h1 | h1
      · exact hk h1
      · exact h.1 h1

theorem nodup_keys_aerase {α β : Type} [DecidableEq α] {l : List (α × β)} {k : α}
    (h : (l.map Prod.fst).Nodup) : ((aerase l k).map Prod.fst).Nodup :=
  ((aerase_sublist l k).map Prod.fst).nodup h

/-- Frame helper: overwriting the room at one code preserves the
`gameStarted` flag observed at any code, provided the overwrite itself
preserves it. -/
theorem alookup_aset_frame {L : List (String × Room)} {r0 r : String}
    {room room1 room' : Room} (hr' : alookup (aset L r0 room1) r = some room')
    (heq : alookup L r0 = some room)
    (hg : room1.gameStarted = room.gameStarted) :
    ∃ roomx, alookup L r = some roomx ∧ room'.gameStarted = roomx.gameStarted := by
  rw [alookup_aset] at hr'
  by_cases hrr : r0 = r
  · subst hrr
    simp only [if_pos rfl, if_true, Option.some.injEq] at hr'
    exact ⟨room, heq, by rw [← hr']; exact hg⟩
  · rw [if_neg hrr] at hr'
    exact ⟨room', hr', rfl⟩

theorem started_handleCreateRoom {s : ServerState} {pid : Nat} {n : Option String}
    {c : String} {r : String} {room' : Room}
    (hr' : alookup (handleCreateRoom s pid n c).1.rooms r = some room') :
    (r = c ∧ room'.gameStarted = false) ∨ alookup s.rooms r = some room' := by
  simp only [handleCreateRoom] at hr'
  rw [alookup_aset] at hr'
  by_cases hrr : c = r
  · subst hrr
    simp only [if_pos rfl, if_true, Option.some.injEq] at hr'
    exact Or.inl ⟨rfl, by rw [← hr']⟩
  · rw [if_neg hrr] at hr'
    exact Or.inr hr'

theorem started_handleFindGame {s : ServerState} {pid : Nat} {n : Option String}
    {c : String} {r : String} {room' : Room}
    (hr' : alookup (handleFindGame s pid n c).1.rooms r = some room') :
    (r = c ∧ room'.gameStarted = false) ∨ alookup s.rooms r = some room' := by
  simp only [handleFindGame] at hr'
  split at hr'
  · split at hr'
    · rw [alookup_aset] at hr'
      by_cases hrr : c = r
      · subst hrr
        simp only [if_pos rfl, if_true, Option.some.injEq] at hr'
        exact Or.inl ⟨rfl, by rw [← hr']⟩
      · rw [if_neg hrr] at hr'
        exact Or.inr hr'
    · exact Or.inr hr'
  · exact Or.inr hr'

theorem started_handleJoinRoom {s : ServerState} {pid : Nat} {code : String}
    {n : Option String} {r : String} {room' : Room}
    (hr' : alookup (handleJoinRoom s pid code n).1.rooms r = some room') :
    ∃ room, alookup s.rooms r = some room ∧ room'.gameStarted = room.gameStarted := by
  simp only [handleJoinRoom] at hr'
  split at hr'
  · rename_i room heq
    split at hr'
    · exact ⟨room', hr', rfl⟩
    · exact alookup_aset_frame hr' heq rfl
  · exact ⟨room', hr', rfl⟩

theorem started_handlePlayerReady {s : ServerState} {pid : Nat} {r : String} {room' : Room}
    (hr' : alookup (handlePlayerReady s pid).1.rooms r = some room') :
    (∃ room, alookup s.rooms r = some room ∧ room'.gameStarted = room.gameStarted)
    ∨ ((alookup s.rooms r).isSome = true ∧ room'.gameStarted = true
        ∧ room'.players.length = 2
        ∧ room'.players.all (fun kv => kv.2.ready) = true) := by
  simp only [handlePlayerReady] at hr'
  split at hr'
  · exact Or.inl ⟨room', hr', rfl⟩
  · rename_i rc hconn
    split at hr'
    · exact Or.inl ⟨room', hr', rfl⟩
    · rename_i room heq
      split at hr'
      · exact Or.inl ⟨room', hr', rfl⟩
      · split at hr'
        · rename_i hcond
          rw [alookup_aset] at hr'
          by_cases hrr : rc = r
          · subst hrr
            simp only [if_pos rfl, if_true, Option.some.injEq] at hr'
            simp only [Bool.and_eq_true, decide_eq_true_eq] at hcond
            refine Or.inr ⟨by simp [heq], ?_, ?_, ?_⟩
            · rw [← hr']
            · rw [← hr']
              exact hcond.2
            · rw [← hr']
              exact hcond.1
          · rw [if_neg hrr] at hr'
            exact Or.inl ⟨room', hr', rfl⟩
        · exact Or.inl (alookup_aset_frame hr' heq rfl)

theorem started_handlePaddleMove {s : ServerState} {pid : Nat} {y : Int} {r : String}
    {room' : Room} (hr' : alookup (handlePaddleMove s pid y).1.rooms r = some room') :
    ∃ room, alookup s.rooms r = some room ∧ room'.gameStarted = room.gameStarted := by
  simp only [handlePaddleMove] at hr'
  split at hr'
  · exact ⟨room', hr', rfl⟩
  · split at hr'
    · exact ⟨room', hr', rfl⟩
    · rename_i room heq
      split at hr'
      · exact ⟨room', hr', rfl⟩
      · split at hr'
        · exact alookup_aset_frame hr' heq rfl
        · exact ⟨room', hr', rfl⟩

theorem started_handleBallUpdate {s : ServerState} {pid : Nat} {b : Ball} {r : String}
    {room' : Room} (hr' : alookup (handleBallUpdate s pid b).1.rooms r = some room') :
    ∃ room, alookup s.rooms r = some room ∧ room'.gameStarted = room.gameStarted := by
  simp only [handleBallUpdate] at hr'
  split at hr'
  · exact ⟨room', hr', rfl⟩
  · split at hr'
    · exact ⟨room', hr', rfl⟩
    · rename_i room heq
      split at hr'
      · exact ⟨room', hr', rfl⟩
      · split at hr'
        · split at hr'
          · exact alookup_aset_frame hr' heq rfl
          · exact ⟨room', hr', rfl⟩
        · exact ⟨room', hr', rfl⟩

theorem started_handleScoreUpdate {s : ServerState} {pid : Nat} {sc : List (Nat × Int)}
    {r : String} {room' : Room}
    (hr' : alookup (handleScoreUpdate s pid sc).1.rooms r = some room') :
    ∃ room, alookup s.rooms r = some room ∧ room'.gameStarted = room.gameStarted := by
  simp only [handleScoreUpdate] at hr'
  split at hr'
  · exact ⟨room', hr', rfl⟩
  · split at hr'
    · exact ⟨room', hr', rfl⟩
    · rename_i room heq
      exact alookup_aset_frame hr' heq rfl

theorem started_handlePlayerScored {s : ServerState} {pid scorer : Nat} {r : String}
    {room' : Room} (hr' : alookup (handlePlayerScored s pid scorer).1.rooms r = some room') :
    ∃ room, alookup s.rooms r = some room ∧ room'.gameStarted = room.gameStarted := by
  simp only [handlePlayerScored] at hr'
  split at hr'
  · exact ⟨room', hr', rfl⟩
  · split at hr'
    · exact ⟨room', hr', rfl⟩
    · rename_i room heq
      split at hr'
      · exact alookup_aset_frame hr' heq rfl
      · exact ⟨room', hr', rfl⟩

theorem started_handleDisconnectSio {s : ServerState} {pid : Nat} {r : String}
    {room' : Room} (hwf : wfRooms s = true)
    (hr' : alookup (handleDisconnectSio s pid).1.rooms r = some room') :
    ∃ room, alookup s.rooms r = some room ∧ room'.gameStarted = room.gameStarted := by
  simp only [handleDisconnectSio] at hr'
  split at hr'
  · exact ⟨room', hr', rfl⟩
  · rename_i rc hconn
    split at hr'
    · exact ⟨room', hr', rfl⟩
    · rename_i room heq
      split at hr'
      · by_cases hrr : r = rc
        · subst hrr
          rw [alookup_aerase_self (by simpa [wfRooms] using hwf)] at hr'
          cases hr'
        · rw [alookup_aerase_ne _ _ _ hrr] at hr'
          exact ⟨room', hr', rfl⟩
      · exact alookup_aset_frame hr' heq rfl

theorem started_handleDisconnectWs {s : ServerState} {pid : Nat} {r : String}
    {room' : Room} (hwf : wfRooms s = true)
    (hr' : alookup (handleDisconnectWs s pid).1.rooms r = some room') :
    ∃ room, alookup s.rooms r = some room ∧ room'.gameStarted = room.gameStarted := by
  simp only [handleDisconnectWs] at hr'
  split at hr'
  · exact ⟨room', hr', rfl⟩
  · rename_i rc hconn
    split at hr'
    · exact ⟨room', hr', rfl⟩
    · rename_i room heq
      split at hr'
      · by_cases hrr : r = rc
        · subst hrr
          rw [alookup_aerase_self (by simpa [wfRooms] using hwf)] at hr'
          cases hr'
        · rw [alookup_aerase_ne _ _ _ hrr] at hr'
          exact ⟨room', hr', rfl⟩
      · exact alookup_aset_frame hr' heq rfl

theorem started_tick {s : ServerState} {r0 : String} {el : Int}
    {out : ServerState × List Out} {r : String} {room' : Room}
    (hout : tick s r0 el = some out)
    (hr' : alookup out.1.rooms r = some room') :
    ∃ room, alookup s.rooms r = some room ∧ room'.gameStarted = room.gameStarted := by
  simp only [tick] at hout
  split at hout
  · exact absurd hout (by simp)
  · rename_i room heq
    split at hout
    · exact absurd hout (by simp)
    · split at hout
      · split at hout
        · cases hout
          exact alookup_aset_frame hr' heq rfl
        · cases hout
          exact alookup_aset_frame hr' heq rfl
      · split at hout
        · split at hout
          · cases hout
            exact alookup_aset_frame hr' heq rfl
          · cases hout
            exact alookup_aset_frame hr' heq rfl
        · cases hout
          exact alookup_aset_frame hr' heq rfl

/-- C2: per room, `gameStarted` becomes true exactly through a `player_ready`
event that leaves the roster at exactly 2 members, all ready; once true it
never goes back to false under any inbound event of either variant or any
timer tick.  Hypotheses: room keys are duplicate-free (automatic for a JS
object) and freshly drawn codes do not collide with existing rooms (a
collision would overwrite the room object, destroying the old room rather
than mutating it). -/
theorem game_started_transition :
    (∀ s e, evFresh s e → wfRooms s = true → ∀ r, startedAt s r = true →
       ∀ room', alookup (stepSio s e).1.rooms r = some room' → room'.gameStarted = true)
    ∧ (∀ s e, evFresh s e → wfRooms s = true → ∀ r, startedAt s r = true →
       ∀ room', alookup (stepWs s e).1.rooms r = some room' → room'.gameStarted = true)
    ∧ (∀ s r0 el out, tick s r0 el = some out → ∀ r, startedAt s r = true →
       ∀ room', alookup out.1.rooms r = some room' → room'.gameStarted = true)
    ∧ (∀ s e r room', wfRooms s = true → startedAt s r = false →
        alookup (stepSio s e).1.rooms r = some room' → room'.gameStarted = true →
        (∃ pid, e = Ev.playerReady pid) ∧ room'.players.length = 2
          ∧ room'.players.all (fun kv => kv.2.ready) = true)
    ∧ (∀ s e r room', wfRooms s = true → startedAt s r = false →
        alookup (stepWs s e).1.rooms r = some room' → room'.gameStarted = true →
        (∃ pid, e = Ev.playerReady pid) ∧ room'.players.length = 2
          ∧ room'.players.all (fun kv => kv.2.ready) = true)
    ∧ (∀ s pid r room, connRoom s pid = some r → alookup s.rooms r = some room →
        (alookup room.players pid).isSome = true →
        (setReady room.players pid).all (fun kv => kv.2.ready) = true →
        (setReady room.players pid).length = 2 →
        ∃ room', alookup (stepSio s (.playerReady pid)).1.rooms r = some room'
          ∧ room'.gameStarted = true) := by
  have hmonoSio : ∀ s e, evFresh s e → wfRooms s = true → ∀ r, startedAt s r = true →
      ∀ room', alookup (stepSio s e).1.rooms r = some room' → room'.gameStarted = true := by
    intro s e hf hwf r hst room' hr'
    cases e with
    | createRoom pid n c =>
      rcases started_handleCreateRoom hr' with ⟨rfl, _⟩ | hold
      · simp only [evFresh] at hf
        simp [startedAt, hf] at hst
      · simpa [startedAt, hold] using hst
    | joinRoom pid c n =>
      obtain ⟨room, heq, hg⟩ := started_handleJoinRoom hr'
      rw [hg]
      simpa [startedAt, heq] using hst
    | findGame pid n c =>
      rcases started_handleFindGame hr' with ⟨rfl, _⟩ | hold
      · simp only [evFresh] at hf
        simp [startedAt, hf] at hst
      · simpa [startedAt, hold] using hst
    | playerReady pid =>
      rcases started_handlePlayerReady hr' with ⟨room, heq, hg⟩ | ⟨_, hg, _, _⟩
      · rw [hg]
        simpa [startedAt, heq] using hst
      · exact hg
    | paddleMove pid y =>
      obtain ⟨room, heq, hg⟩ := started_handlePaddleMove hr'
      rw [hg]
      simpa [startedAt, heq] using hst
    | ballUpdate pid b =>
      obtain ⟨room, heq, hg⟩ := started_handleBallUpdate hr'
      rw [hg]
      simpa [startedAt, heq] using hst
    | scoreUpdate pid sc =>
      obtain ⟨room, heq, hg⟩ := started_handleScoreUpdate hr'
      rw [hg]
      simpa [startedAt, heq] using hst
    | playerScored pid sc =>
      obtain ⟨room, heq, hg⟩ := started_handlePlayerScored hr'
      rw [hg]
      simpa [startedAt, heq] using hst
    | disconnect pid =>
      obtain ⟨room, heq, hg⟩ := started_handleDisconnectSio hwf hr'
      rw [hg]
      simpa [startedAt, heq] using hst
  have hmonoWs : ∀ s e, evFresh s e → wfRooms s = true → ∀ r, startedAt s r = true →
      ∀ room', alookup (stepWs s e).1.rooms r = some room' → room'.gameStarted = true := by
    intro s e hf hwf r hst room' hr'
    cases e with
    | disconnect pid =>
      obtain ⟨room, heq, hg⟩ := started_handleDisconnectWs hwf hr'
      rw [hg]
      simpa [startedAt, heq] using hst
    | createRoom pid n c => exact hmonoSio s (.createRoom pid n c) hf hwf r hst room' hr'
    | joinRoom pid c n => exact hmonoSio s (.joinRoom pid c n) hf hwf r hst room' hr'
    | findGame pid n c => exact hmonoSio s (.findGame pid n c) hf hwf r hst room' hr'
    | playerReady pid => exact hmonoSio s (.playerReady pid) hf hwf r hst room' hr'
    | paddleMove pid y => exact hmonoSio s (.paddleMove pid y) hf hwf r hst room' hr'
    | ballUpdate pid b => exact hmonoSio s (.ballUpdate pid b) hf hwf r hst room' hr'
    | scoreUpdate pid sc => exact hmonoSio s (.scoreUpdate pid sc) hf hwf r hst room' hr'
    | playerScored pid sc => exact hmonoSio s (.playerScored pid sc) hf hwf r hst room' hr'
  have htrigSio : ∀ s e r room', wfRooms s = true → startedAt s r = false →
      alookup (stepSio s e).1.rooms r = some room' → room'.gameStarted = true →
      (∃ pid, e = Ev.playerReady pid) ∧ room'.players.length = 2
        ∧ room'.players.all (fun kv => kv.2.ready) = true := by
    intro s e r room' hwf hst0 hr' hstrue
    cases e with
    | createRoom pid n c =>
      rcases started_handleCreateRoom hr' with ⟨_, hfalse⟩ | hold
      · rw [hfalse] at hstrue
        cases hstrue
      · simp [startedAt, hold, hstrue] at hst0
    | joinRoom pid c n =>
      obtain ⟨room, heq, hg⟩ := started_handleJoinRoom hr'
      rw [hg] at hstrue
      simp [startedAt, heq, hstrue] at hst0
    | findGame pid n c =>
      rcases started_handleFindGame hr' with ⟨_, hfalse⟩ | hold
      · rw [hfalse] at hstrue
        cases hstrue
      · simp [startedAt, hold, hstrue] at hst0
    | playerReady pid =>
      rcases started_handlePlayerReady hr' with ⟨room, heq, hg⟩ | ⟨_, _, hlen, hall⟩
      · rw [hg] at hstrue
        simp [startedAt, heq, hstrue] at hst0
      · exact ⟨⟨pid, rfl⟩, hlen, hall⟩
    | paddleMove pid y =>
      obtain ⟨room, heq, hg⟩ := started_handlePaddleMove hr'
      rw [hg] at hstrue
      simp [startedAt, heq, hstrue] at hst0
    | ballUpdate pid b =>
      obtain ⟨room, heq, hg⟩ := started_handleBallUpdate hr'
      rw [hg] at hstrue
      simp [startedAt, heq, hstrue] at hst0
    | scoreUpdate pid sc =>
      obtain ⟨room, heq, hg⟩ := started_handleScoreUpdate hr'
      rw [hg] at hstrue
      simp [startedAt, heq, hstrue] at hst0
    | playerScored pid sc =>
      obtain ⟨room, heq, hg⟩ := started_handlePlayerScored hr'
      rw [hg] at hstrue
      simp [startedAt, heq, hstrue] at hst0
    | disconnect pid =>
      obtain ⟨room, heq, hg⟩ := started_handleDisconnectSio hwf hr'
      rw [hg] at hstrue
      simp [startedAt, heq, hstrue] at hst0
  have htrigWs : ∀ s e r room', wfRooms s = true → startedAt s r = false →
      alookup (stepWs s e).1.rooms r = some room' → room'.gameStarted = true →
      (∃ pid, e = Ev.playerReady pid) ∧ room'.players.length = 2
        ∧ room'.players.all (fun kv => kv.2.ready) = true := by
    intro s e r room' hwf hst0 hr' hstrue
    cases e with
    | disconnect pid =>
      obtain ⟨room, heq, hg⟩ := started_handleDisconnectWs hwf hr'
      rw [hg] at hstrue
      simp [startedAt, heq, hstrue] at hst0
    | createRoom pid n c => exact htrigSio s (.createRoom pid n c) r room' hwf hst0 hr' hstrue
    | joinRoom pid c n => exact htrigSio s (.joinRoom pid c n) r room' hwf hst0 hr' hstrue
    | findGame pid n c => exact htrigSio s (.findGame pid n c) r room' hwf hst0 hr' hstrue
    | playerReady pid => exact htrigSio s (.playerReady pid) r room' hwf hst0 hr' hstrue
    | paddleMove pid y => exact htrigSio s (.paddleMove pid y) r room' hwf hst0 hr' hstrue
    | ballUpdate pid b => exact htrigSio s (.ballUpdate pid b) r room' hwf hst0 hr' hstrue
    | scoreUpdate pid sc => exact htrigSio s (.scoreUpdate pid sc) r room' hwf hst0 hr' hstrue
    | playerScored pid sc => exact htrigSio s (.playerScored pid sc) r room' hwf hst0 hr' hstrue
  refine ⟨hmonoSio, hmonoWs, ?_, htrigSio, htrigWs, ?_⟩
  · intro s r0 el out hout r hst room' hr'
    obtain ⟨room, heq, hg⟩ := started_tick hout hr'
    rw [hg]
    simpa [startedAt, heq] using hst
  · intro s pid r room hconn heq hmem hall hlen
    obtain ⟨pl, hpl⟩ := Option.isSome_iff_exists.mp hmem
    show ∃ room', alookup (handlePlayerReady s pid).1.rooms r = some room'
      ∧ room'.gameStarted = true
    simp only [handlePlayerReady, hconn, heq, hpl]
    rw [if_pos (by rw [hall, hlen]; simp)]
    refine ⟨_, by rw [alookup_aset, if_pos rfl], rfl⟩

/-- Witness for `game_started_transition`: in the concrete `lobbyState`,
player 2's `player_ready` makes both members ready and flips `gameStarted`
to true. -/
theorem game_started_transition_witness :
    ∃ room', alookup (stepSio lobbyState (.playerReady 2)).1.rooms "R1" = some room'
      ∧ room'.gameStarted = true :=
  game_started_transition.2.2.2.2.2 lobbyState 2 "R1" lobbyRoom (by decide) (by decide)
    (by decide) (by decide) (by decide)

/-- C3 counterexample: in `demoState` (set 1, one second left, live scores
3:5) the expiry tick enters the rest period with `restTimeRemaining = 30` and
snapshots 3:5 into `set1Scores`, but the live scores are NOT reset to 0 —
they remain 3:5, contradicting the claim that this handler resets them. -/
theorem tick_set1_no_score_reset :
    (tick demoState "R1" 1).map (fun out => scoresAt out.1 "R1") = some [(1, 3), (2, 5)]
    ∧ (tick demoState "R1" 1).map
        (fun out => (alookup out.1.rooms "R1").bind (fun room => room.matchState)) =
      some (some { currentSet := 1, timeRemaining := 0, isRestPeriod := true,
                   restTimeRemaining := 30,
                   set1Scores := [(1, 3), (2, 5)], set2Scores := [(1, 0), (2, 0)] }) := by
  constructor
  · rfl
  · rfl

/-- C3 (amended): on a match-timer tick during set 1 whose elapsed time
takes `timeRemaining` to ≤ 0, the handler snapshots the live scores into
`set1Scores`, enters the rest period with `restTimeRemaining = 30`, and
broadcasts `rest_period_starting` to every room member — but it leaves the
live scores unchanged (they are reset to 0 only later, by the rest-expiry
branch that starts set 2). -/
theorem tick_set1_expiry {s : ServerState} {r : String} {el : Int} {room : Room}
    {ms : MatchState} (hr : alookup s.rooms r = some room)
    (hms : room.matchState = some ms) (hrest : ms.isRestPeriod = false)
    (hset : ms.currentSet = 1) (hexp : ms.timeRemaining - el ≤ 0) :
    ∃ s' ms', tick s r el =
        some (s', room.players.map (fun kv => Out.restPeriodStarting kv.1 ms'))
      ∧ alookup s'.rooms r = some { room with matchState := some ms' }
      ∧ ms'.isRestPeriod = true ∧ ms'.restTimeRemaining = 30
      ∧ ms'.set1Scores = snapScores ms.set1Scores room.gameState.scores
          (room.startIds.getD 0 0) (room.startIds.getD 1 0)
      ∧ scoresAt s' r = room.gameState.scores := by
  simp only [tick, hr, hms, hrest, Bool.false_eq_true, if_false, hset]
  rw [if_pos hexp]
  simp only [if_pos rfl, if_true]
  refine ⟨_, _, rfl, ?_, rfl, rfl, rfl, ?_⟩
  · rw [alookup_aset, if_pos rfl]
  · simp [scoresAt, alookup_aset]

/-- Witness for `tick_set1_expiry` at the concrete `demoState`. -/
theorem tick_set1_expiry_witness :
    ∃ s' ms', tick demoState "R1" 1 =
        some (s', demoRoom.players.map (fun kv => Out.restPeriodStarting kv.1 ms'))
      ∧ alookup s'.rooms "R1" = some { demoRoom with matchState := some ms' }
      ∧ ms'.isRestPeriod = true ∧ ms'.restTimeRemaining = 30
      ∧ ms'.set1Scores = snapScores demoMs.set1Scores demoRoom.gameState.scores
          (demoRoom.startIds.getD 0 0) (demoRoom.startIds.getD 1 0)
      ∧ scoresAt s' "R1" = demoRoom.gameState.scores :=
  tick_set1_expiry (by decide) (by decide) (by decide) (by decide) (by decide)

/-- C4: `emptyRoomTrace` creates room `ROOM41`, starts its game and then
empties it by disconnects.  In the WebSocket variant the `close` handler
deletes the room WITHOUT `clearInterval`: the room is gone, its match timer
is still live, and the next tick crashes (`none`) because the deleted-room
guard itself dereferences `rooms[roomId].matchTimer` on `undefined`.  The
Socket.io variant stops the timer on the same trace, as the claim demands. -/
theorem ws_timer_survives_room_destruction :
    alookup (runWs initState emptyRoomTrace).rooms "ROOM41" = none
    ∧ (runWs initState emptyRoomTrace).timers = ["ROOM41"]
    ∧ tick (runWs initState emptyRoomTrace) "ROOM41" 1 = none
    ∧ (runSio initState emptyRoomTrace).timers = [] :=
  ⟨rfl, rfl, rfl, rfl⟩

/-- C5 (amended): the Socket.io and WebSocket variants take identical
transitions (same state, same outbound events) on every event except
`disconnect`; on `disconnect` they emit the same events and agree on rooms,
queue and connection bindings, differing only in the timer cleanup. -/
theorem transport_variants_agree :
    (∀ s pid n c, stepSio s (.createRoom pid n c) = stepWs s (.createRoom pid n c))
    ∧ (∀ s pid c n, stepSio s (.joinRoom pid c n) = stepWs s (.joinRoom pid c n))
    ∧ (∀ s pid n c, stepSio s (.findGame pid n c) = stepWs s (.findGame pid n c))
    ∧ (∀ s pid, stepSio s (.playerReady pid) = stepWs s (.playerReady pid))
    ∧ (∀ s pid y, stepSio s (.paddleMove pid y) = stepWs s (.paddleMove pid y))
    ∧ (∀ s pid b, stepSio s (.ballUpdate pid b) = stepWs s (.ballUpdate pid b))
    ∧ (∀ s pid sc, stepSio s (.scoreUpdate pid sc) = stepWs s (.scoreUpdate pid sc))
    ∧ (∀ s pid sc, stepSio s (.playerScored pid sc) = stepWs s (.playerScored pid sc))
    ∧ (∀ s pid, (stepSio s (.disconnect pid)).2 = (stepWs s (.disconnect pid)).2
        ∧ (stepSio s (.disconnect pid)).1.rooms = (stepWs s (.disconnect pid)).1.rooms
        ∧ (stepSio s (.disconnect pid)).1.waitingPlayers
            = (stepWs s (.disconnect pid)).1.waitingPlayers
        ∧ (stepSio s (.disconnect pid)).1.conns = (stepWs s (.disconnect pid)).1.conns) := by
  refine ⟨fun s pid n c => rfl, fun s pid c n => rfl, fun s pid n c => rfl,
    fun s pid => rfl, fun s pid y => rfl, fun s pid b => rfl, fun s pid sc => rfl,
    fun s pid sc => rfl, ?_⟩
  intro s pid
  simp only [stepSio, stepWs]
  cases h1 : connRoom s pid with
  | none =>
    simp [handleDisconnectSio, handleDisconnectWs, h1]
  | some r =>
    cases h2 : alookup s.rooms r with
    | none =>
      simp [handleDisconnectSio, handleDisconnectWs, h1, h2]
    | some room =>
      cases h3 : (aerase room.players pid).isEmpty with
      | true =>
        simp [handleDisconnectSio, handleDisconnectWs, h1, h2, h3]
      | false =>
        simp [handleDisconnectSio, handleDisconnectWs, h1, h2, h3]

/-- C5 counterexample: the two variants are not behaviorally equivalent —
after `emptyRoomTrace` the Socket.io variant has stopped the emptied room's
match timer while the WebSocket variant still holds it, so the resulting
states differ. -/
theorem transport_variants_differ :
    runSio initState emptyRoomTrace ≠ runWs initState emptyRoomTrace
    ∧ (runSio initState emptyRoomTrace).timers = []
    ∧ (runWs initState emptyRoomTrace).timers = ["ROOM41"] :=
  ⟨by decide, rfl, rfl⟩

/-- C6: a `ball_update` from a room member who is not the host, or sent
before `gameStarted`, changes nothing and emits nothing, in both variants; a
host's `ball_update` while started replaces the authoritative ball and relays
one `ball_update` to the first other member — who is some member other than
the sender (hence, with the sender the sole host, the non-host member). -/
theorem ball_update_host_authority :
    (∀ s pid b r room pl, connRoom s pid = some r → alookup s.rooms r = some room →
        alookup room.players pid = some pl →
        (room.gameStarted = false ∨ pl.isHost = false) →
        stepSio s (.ballUpdate pid b) = (s, []) ∧ stepWs s (.ballUpdate pid b) = (s, []))
    ∧ (∀ s pid b r room pl, connRoom s pid = some r → alookup s.rooms r = some room →
        alookup room.players pid = some pl → room.gameStarted = true → pl.isHost = true →
        stepSio s (.ballUpdate pid b) =
          ({ s with
             rooms :=
               aset s.rooms r
                 ({ room with gameState := { room.gameState with ball := b } }) },
           match firstOther room.players pid with
           | some q => [Out.ballUpdate q b]
           | none => [])
        ∧ stepWs s (.ballUpdate pid b) = stepSio s (.ballUpdate pid b))
    ∧ (∀ ps p q, firstOther ps p = some q → q ≠ p ∧ q ∈ ps.map Prod.fst) := by
  refine ⟨?_, ?_, ?_⟩
  · intro s pid b r room pl hconn hr hpl hcase
    have hboth : handleBallUpdate s pid b = (s, []) := by
      simp only [handleBallUpdate, hconn, hr, hpl]
      rcases hcase with hg | hh
      · simp [hg]
      · cases hgs : room.gameStarted <;> simp [hgs, hh]
    exact ⟨hboth, hboth⟩
  · intro s pid b r room pl hconn hr hpl hs hhost
    have hstep : handleBallUpdate s pid b =
        ({ s with
           rooms :=
             aset s.rooms r
               ({ room with gameState := { room.gameState with ball := b } }) },
         match firstOther room.players pid with
         | some q => [Out.ballUpdate q b]
         | none => []) := by
      simp only [handleBallUpdate, hconn, hr, hpl, hs, hhost, if_true]
    exact ⟨hstep, rfl⟩
  · intro ps p q hq
    simp only [firstOther] at hq
    obtain ⟨kv, hfind, hq1⟩ := Option.map_eq_some'.mp hq
    have hmem := List.mem_of_find?_eq_some hfind
    have hpred := List.find?_some hfind
    subst hq1
    exact ⟨by simpa using hpred, List.mem_map.mpr ⟨kv, hmem, rfl⟩⟩

/-- Witness for `ball_update_host_authority`: in `demoState` the non-host
member 2's `ball_update` is silently dropped by both variants. -/
theorem ball_update_host_authority_witness :
    stepSio demoState (.ballUpdate 2 { x := 1, y := 2, speedX := 3, speedY := 4 })
      = (demoState, [])
    ∧ stepWs demoState (.ballUpdate 2 { x := 1, y := 2, speedX := 3, speedY := 4 })
      = (demoState, []) :=
  ball_update_host_authority.1 demoState 2 { x := 1, y := 2, speedX := 3, speedY := 4 }
    "R1" demoRoom { ready := true, isHost := false, name := "Bob" }
    (by decide) (by decide) (by decide) (Or.inr (by decide))

/-- C7 counterexample: in `demoState` (a live room, bound connections) a
`score_update` without `scores`, a `join_room` without `roomId`, and a
`player_scored` without `scoringPlayer` each produce NO outbound event at all
— in particular no `error` event to the sender, contrary to the claim that an
error is reported back; shared state is unchanged. -/
theorem malformed_payload_no_error :
    handleMsgWs demoState (.scoreUpdate 1 none) = (demoState, [])
    ∧ handleMsgWs demoState (.joinRoom 3 none (some "Carol")) = (demoState, [])
    ∧ handleMsgWs demoState (.playerScored 2 none) = (demoState, []) :=
  ⟨rfl, rfl, rfl⟩

/-- C7 (amended): a WS message with a missing required field mutates no
shared room/queue state but reports NO error to the sender: `join_room`
without `roomId` throws at `data.roomId.trim()` and the message catch block
only logs; `score_update` without `scores` and `player_scored` without
`scoringPlayer` fail their truthiness guards and fall through silently. -/
theorem malformed_payload_dropped :
    (∀ s pid pn, handleMsgWs s (.joinRoom pid none pn) = (s, []))
    ∧ (∀ s pid, handleMsgWs s (.scoreUpdate pid none) = (s, []))
    ∧ (∀ s pid, handleMsgWs s (.playerScored pid none) = (s, [])) :=
  ⟨fun _ _ _ => rfl, fun _ _ => rfl, fun _ _ => rfl⟩

theorem upChar_base36 : ∀ d, d < 36 →
    ('A' ≤ upChar (base36Char d) ∧ upChar (base36Char d) ≤ 'Z')
    ∨ ('0' ≤ upChar (base36Char d) ∧ upChar (base36Char d) ≤ '9') := by decide

/-- C8 counterexample: `Math.random() = 0.5` prints as `"0.i"` in base 36
(digit list `[18]`, a possible draw since 0.5 is an exact double), and
`substring(2, 8).toUpperCase()` of it is `"I"` — 1 character, not 6. -/
theorem room_code_short :
    validDigits [18] = true ∧ genRoomCode [18] = "I" ∧ (genRoomCode [18]).length ≠ 6 :=
  ⟨rfl, rfl, by decide⟩

/-- C8 (amended): a generated room code has AT MOST 6 characters (fewer when
the random draw's base-36 expansion is short), all uppercase letters or
digits; and `join_room` depends on the submitted code only through its
normalization `trim().toUpperCase()`. -/
theorem room_code_format (ds : List Nat) (h : validDigits ds = true) :
    (genRoomCode ds).length ≤ 6
    ∧ (∀ c ∈ (genRoomCode ds).data, ('A' ≤ c ∧ c ≤ 'Z') ∨ ('0' ≤ c ∧ c ≤ '9'))
    ∧ (∀ s pid code1 code2 n, normCode code1 = normCode code2 →
        stepSio s (.joinRoom pid code1 n) = stepSio s (.joinRoom pid code2 n)) := by
  refine ⟨?_, ?_, ?_⟩
  · by_cases hds : ds.isEmpty
    · simp [genRoomCode, randomToString36, hds, String.length]
    · simp only [genRoomCode, randomToString36, hds, Bool.false_eq_true, if_false]
      show (((('0' :: '.' :: ds.map base36Char).drop 2).take 6).map upChar).length ≤ 6
      simp only [List.drop_succ_cons, List.drop_zero, List.length_map]
      exact List.length_take_le 6 _
  · intro c hc
    simp only [genRoomCode, String.data] at hc
    obtain ⟨c0, hc0, rfl⟩ := List.mem_map.mp hc
    have hc1 : c0 ∈ (randomToString36 ds).data.drop 2 := List.mem_of_mem_take hc0
    by_cases hds : ds.isEmpty
    · simp [randomToString36, hds] at hc1
    · simp only [randomToString36, hds, Bool.false_eq_true, if_false] at hc1
      simp only [String.data, List.drop_succ_cons, List.drop_zero] at hc1
      obtain ⟨d, hd, rfl⟩ := List.mem_map.mp hc1
      have hd36 : d < 36 := by
        simp only [validDigits, Bool.and_eq_true, List.all_eq_true] at h
        simpa using h.1 d hd
      exact upChar_base36 d hd36
  · intro s pid c1 c2 n hn
    simp only [stepSio, handleJoinRoom, hn]

/-- Witness for `room_code_format` at the digit draw `[10..16]`
(`"0.abcdefg"`), whose code is the 6-character `"ABCDEF"`. -/
theorem room_code_format_witness :
    (genRoomCode [10, 11, 12, 13, 14, 15, 16]).length ≤ 6
    ∧ (∀ c ∈ (genRoomCode [10, 11, 12, 13, 14, 15, 16]).data,
        ('A' ≤ c ∧ c ≤ 'Z') ∨ ('0' ≤ c ∧ c ≤ '9'))
    ∧ (∀ s pid code1 code2 n, normCode code1 = normCode code2 →
        stepSio s (.joinRoom pid code1 n) = stepSio s (.joinRoom pid code2 n)) :=
  room_code_format [10, 11, 12, 13, 14, 15, 16] (by decide)

theorem alookup_mem {α β : Type} [DecidableEq α] {l : List (α × β)} {k : α} {v : β}
    (h : alookup l k = some v) : (k, v) ∈ l := by
  induction l with
  | nil => simp [alookup] at h
  | cons hd t ih =>
    obtain ⟨k0, v0⟩ := hd
    by_cases h0 : k0 = k
    · subst h0
      simp only [alookup, if_pos rfl, if_true, Option.some.injEq] at h
      simp [← h]
    · simp only [alookup, h0, if_false] at h
      exact List.mem_cons_of_mem _ (ih h)

/-- C9: a handled `score_update` merges the submitted scores into the live
map and sends ONE identical full scores map to every room member (the sender
included whenever the sender is a member); a handled `player_scored` for a
member increments that member's live score by exactly 1 and broadcasts the
same full map to every member.  The WebSocket variant takes the identical
transition. -/
theorem score_broadcast_convergence :
    (∀ s pid scores r room, connRoom s pid = some r → alookup s.rooms r = some room →
        (stepSio s (.scoreUpdate pid scores)).2
          = room.players.map (fun kv =>
              Out.scoreUpdate kv.1 (mergeScores room.gameState.scores scores))
        ∧ scoresAt (stepSio s (.scoreUpdate pid scores)).1 r
          = mergeScores room.gameState.scores scores
        ∧ stepWs s (.scoreUpdate pid scores) = stepSio s (.scoreUpdate pid scores))
    ∧ (∀ s pid scores r room pl, connRoom s pid = some r → alookup s.rooms r = some room →
        alookup room.players pid = some pl →
        Out.scoreUpdate pid (mergeScores room.gameState.scores scores)
          ∈ (stepSio s (.scoreUpdate pid scores)).2)
    ∧ (∀ s pid scorer r room, connRoom s pid = some r → alookup s.rooms r = some room →
        scorer ∈ room.players.map Prod.fst →
        alookup (scoresAt (stepSio s (.playerScored pid scorer)).1 r) scorer
          = some ((alookup room.gameState.scores scorer).getD 0 + 1)
        ∧ (stepSio s (.playerScored pid scorer)).2
          = room.players.map (fun kv => Out.scoreUpdate kv.1
              (aset room.gameState.scores scorer
                ((alookup room.gameState.scores scorer).getD 0 + 1)))
        ∧ stepWs s (.playerScored pid scorer) = stepSio s (.playerScored pid scorer)) := by
  refine ⟨?_, ?_, ?_⟩
  · intro s pid scores r room hconn hr
    refine ⟨?_, ?_, rfl⟩
    · simp only [stepSio, handleScoreUpdate, hconn, hr]
    · simp only [stepSio, handleScoreUpdate, hconn, hr, scoresAt]
      rw [alookup_aset, if_pos rfl]
  · intro s pid scores r room pl hconn hr hpl
    have h1 : (stepSio s (.scoreUpdate pid scores)).2
        = room.players.map (fun kv =>
            Out.scoreUpdate kv.1 (mergeScores room.gameState.scores scores)) := by
      simp only [stepSio, handleScoreUpdate, hconn, hr]
    rw [h1]
    exact List.mem_map.mpr ⟨(pid, pl), alookup_mem hpl, rfl⟩
  · intro s pid scorer r room hconn hr hmem
    refine ⟨?_, ?_, ?_⟩
    · simp only [stepSio, handlePlayerScored, hconn, hr]
      rw [if_pos hmem]
      simp only [scoresAt]
      rw [alookup_aset, if_pos rfl, alookup_aset, if_pos rfl]
    · simp only [stepSio, handlePlayerScored, hconn, hr]
      rw [if_pos hmem]
    · simp only [stepSio, stepWs, handlePlayerScored, hconn, hr]

/-- Witness for `score_broadcast_convergence` at `demoState`: member 2's
`player_scored` for player 1 moves the live map from 3:5 to 4:5 and is
broadcast to both members. -/
theorem score_broadcast_convergence_witness :
    alookup (scoresAt (stepSio demoState (.playerScored 2 1)).1 "R1") 1 = some 4
    ∧ (stepSio demoState (.playerScored 2 1)).2
      = [Out.scoreUpdate 1 [(1, 4), (2, 5)], Out.scoreUpdate 2 [(1, 4), (2, 5)]]
    ∧ stepWs demoState (.playerScored 2 1) = stepSio demoState (.playerScored 2 1) :=
  score_broadcast_convergence.2.2 demoState 2 1 "R1" demoRoom
    (by decide) (by decide) (by decide)

/-- C10: a `join_room` on an existing full room binds the rejected joiner's
connection to that room; when that connection later disconnects, every member
of the room it never joined is sent `opponent_disconnected`, the roster is
untouched, and the WebSocket variant behaves identically. -/
theorem rejected_joiner_disconnect_broadcast :
    (∀ s pid code n room, alookup s.rooms (normCode code) = some room →
        2 ≤ room.players.length → normCode code ≠ "" →
        connRoom (stepSio s (.joinRoom pid code n)).1 pid = some (normCode code))
    ∧ (∀ s pid r room, connRoom s pid = some r → alookup s.rooms r = some room →
        alookup room.players pid = none → room.players ≠ [] →
        (stepSio s (.disconnect pid)).2
          = room.players.map (fun kv => Out.opponentDisconnected kv.1)
        ∧ alookup (stepSio s (.disconnect pid)).1.rooms r = some room
        ∧ stepWs s (.disconnect pid) = stepSio s (.disconnect pid))
    ∧ (∀ s pid code n room, alookup s.rooms (normCode code) = some room →
        2 ≤ room.players.length → normCode code ≠ "" →
        alookup room.players pid = none → room.players ≠ [] →
        (stepSio (stepSio s (.joinRoom pid code n)).1 (.disconnect pid)).2
          = room.players.map (fun kv => Out.opponentDisconnected kv.1)) := by
  have hbind : ∀ s pid code n room, alookup s.rooms (normCode code) = some room →
      2 ≤ room.players.length → normCode code ≠ "" →
      connRoom (stepSio s (.joinRoom pid code n)).1 pid = some (normCode code) := by
    intro s pid code n room hr hfull hne
    show connRoom (handleJoinRoom s pid code n).1 pid = some (normCode code)
    rw [handleJoinRoom_full hr hfull]
    simp only [connRoom]
    rw [alookup_aset, if_pos rfl]
    simp [hne]
  have hdisc : ∀ s pid r room, connRoom s pid = some r → alookup s.rooms r = some room →
      alookup room.players pid = none → room.players ≠ [] →
      (stepSio s (.disconnect pid)).2
        = room.players.map (fun kv => Out.opponentDisconnected kv.1)
      ∧ alookup (stepSio s (.disconnect pid)).1.rooms r = some room
      ∧ stepWs s (.disconnect pid) = stepSio s (.disconnect pid) := by
    intro s pid r room hconn hr hpl hne
    have hfe := filter_eq_self_of_alookup_none hpl
    have her := aerase_of_alookup_none hpl
    have hie : room.players.isEmpty = false := by
      cases hp : room.players
      · exact absurd hp hne
      · rfl
    refine ⟨?_, ?_, ?_⟩
    · simp only [stepSio, handleDisconnectSio, hconn, hr, her, hfe]
      rw [if_neg (by simp [hie])]
    · simp only [stepSio, handleDisconnectSio, hconn, hr, her, hfe]
      rw [if_neg (by simp [hie])]
      rw [alookup_aset, if_pos rfl]
    · simp only [stepSio, stepWs, handleDisconnectSio, handleDisconnectWs, hconn, hr,
        her, hfe]
      rw [if_neg (by simp [hie]), if_neg (by simp [hie])]
  refine ⟨hbind, hdisc, ?_⟩
  intro s pid code n room hr hfull hne hpl hnonempty
  have hs1 : (stepSio s (.joinRoom pid code n)).1
      = { s with conns := aset s.conns pid (some (normCode code)) } := by
    show (handleJoinRoom s pid code n).1 = _
    rw [handleJoinRoom_full hr hfull]
  have hconn1 : connRoom (stepSio s (.joinRoom pid code n)).1 pid
      = some (normCode code) := hbind s pid code n room hr hfull hne
  have hr1 : alookup (stepSio s (.joinRoom pid code n)).1.rooms (normCode code)
      = some room := by
    rw [hs1]
    exact hr
  exact (hdisc _ pid (normCode code) room hconn1 hr1 hpl hnonempty).1

/-- Witness for `rejected_joiner_disconnect_broadcast` at `demoState`:
connection 3 is bound to `R1` without membership; its disconnect notifies
both members 1 and 2 and leaves the roster intact. -/
theorem rejected_joiner_disconnect_broadcast_witness :
    (stepSio demoState (.disconnect 3)).2
      = [Out.opponentDisconnected 1, Out.opponentDisconnected 2]
    ∧ alookup (stepSio demoState (.disconnect 3)).1.rooms "R1" = some demoRoom
    ∧ stepWs demoState (.disconnect 3) = stepSio demoState (.disconnect 3) :=
  rejected_joiner_disconnect_broadcast.2.1 demoState 3 "R1" demoRoom
    (by decide) (by decide) (by decide) (by decide)

end Pong
